import Mathlib

/-!
Shallow embedding of the arc-commit interactive commit workflow
(main.go, internal/cmd, internal/prompt/commit.go).

External collaborators (the git binary, the AI generation service, the
editor, and the interactive terminal) are modelled by an oracle `World`
holding the outcome each external call would produce.  The workflow
functions are translated from the Go source; each run returns the Go
error value (`none` = nil = exit code 0) together with the list of
observable events (prints, external invocations) in order.
-/

namespace ArcCommit

/-- Go error values as built by this program: `external` is an error
originating in an external process or the OS, `errorf` is a
`fmt.Errorf` with no wrapped cause, `wrap` is `fmt.Errorf("...: %w", err)`,
and `cli` is `errors.NewCLIError(msg).WithHint(h).WithCause(c)`. -/
inductive Err
  | external (desc : String)
  | errorf (text : String)
  | wrap (text : String) (cause : Err)
  | cli (message : String) (hint : Option String) (cause : Option Err)

/-- Model of Go strings.TrimSpace: drop whitespace from both ends. -/
def goTrim (s : String) : String :=
  String.mk (((s.data.dropWhile Char.isWhitespace).reverse.dropWhile
    Char.isWhitespace).reverse)

/-- Model of Go strings.ToLower: lowercase every character. -/
def goToLower (s : String) : String :=
  String.mk (s.data.map Char.toLower)

/-- The wrapped cause carried by an error, if any (`errors.Unwrap`). -/
def errCause : Err → Option Err
  | .external _ => none
  | .errorf _ => none
  | .wrap _ c => some c
  | .cli _ _ c => c

/-- Result of one `reader.ReadString` call: the data read and the error, if
any (Go returns both; the data may be non-empty even on error). -/
abbrev ReadResult := String × Option Err

/-- Outcome of running the external git binary once: it either started and
exited with a code, or could not be run at all. -/
inductive GitRunOutcome
  | exited (code : Nat)
  | startFailure (cause : String)
deriving DecidableEq, Repr

/-- Observable events of a session, in order: prints to stdout, external
process invocations, generation requests, terminal reads.  `runCommit m`
records an invocation of `git commit -F -` with `m` fed byte-for-byte on
standard input; it is the only event that mutates the repository. -/
inductive Event
  | runGitCheck
  | runGitDiff
  | print (s : String)
  | readLine
  | genCall (system user : String)
  | runEditor (initial : String)
  | runCommit (message : String)
deriving DecidableEq, Repr

/-- User decision parsed from one line of terminal input. -/
inductive Decision
  | approve | regenerate | edit | cancel | invalid
deriving DecidableEq, Repr

/-- Oracle for the external collaborators: what each external call would
return if made.  `gens n` is the AI service response text of the n-th
generation request (0 = the initial one); `inputs` are the successive
terminal reads, an exhausted list meaning end-of-stream (EOF). -/
structure World where
  checkRun : GitRunOutcome
  diffRun : Except Err String
  clientNew : Except Err Unit
  gens : Nat → Except Err String
  inputs : List ReadResult
  editorRun : Except Err String
  commitRun : Option Err

/-- CommitMessage (internal/prompt/commit.go): the system and user prompts
for generating a commit message. -/
def CommitMessage (diff feedback : String) : String × String :=
  let system := "You are an expert developer who writes clear, professional commit messages following conventional commits format.\n\nYour task is to generate a commit message based on git diff output. Follow these principles:\n\n1. **Format**: Use conventional commits (feat:, fix:, refactor:, docs:, test:, chore:)\n2. **Subject line**: Concise summary (max 72 chars), imperative mood (\"add\" not \"added\")\n3. **Body**: Explain WHY, not WHAT (the diff shows what changed)\n4. **Scope**: Add scope when helpful (e.g., \"feat(cli):\", \"fix(database):\")\n5. **Breaking changes**: Use \"!\" for breaking changes (e.g., \"feat!:\")\n\nStyle guidelines:\n- Clear and professional tone\n- No unnecessary words or filler\n- Focus on user impact and intent\n- Group related changes logically\n\nOutput ONLY the commit message, no additional commentary."
  let user := "Generate a conventional commit message for these changes:\n\n" ++ diff
  let user := if feedback != "" then
    user ++ "\n\nUser feedback for improvement: " ++ feedback
  else user
  (system, user)

/-- generateCommitMessage: composes the prompt pair, issues the generation
request (outcome supplied by the oracle), wraps a failure as
"AI request failed: %w" and trims the response text. -/
def generateCommitMessage (genOutcome : Except Err String) (diff feedback : String) :
    Except Err String × Event :=
  let p := CommitMessage diff feedback
  (match genOutcome with
   | .error e => .error (Err.wrap "AI request failed" e)
   | .ok text => .ok (goTrim text),
   Event.genCall p.1 p.2)

/-- checkStagedChanges: runs `git diff --staged --quiet`.  Exit code 0 (no
differences) yields the error "no staged changes"; exit code 1
(differences exist) yields nil; any other outcome is wrapped as
"failed to check staged changes: %w". -/
def checkStagedChanges (run : GitRunOutcome) : Option Err :=
  match run with
  | .exited 0 => some (.errorf "no staged changes")
  | .exited 1 => none
  | .exited c => some (.wrap "failed to check staged changes"
      (.external ("exit status " ++ toString c)))
  | .startFailure s => some (.wrap "failed to check staged changes" (.external s))

/-- createCommit: runs `git commit -F -` with the message on standard
input; a run failure is wrapped as "failed to create commit: %w". -/
def createCommit (commitOutcome : Option Err) (message : String) :
    Option Err × Event :=
  (commitOutcome.map (Err.wrap "failed to create commit"), Event.runCommit message)

/-- Decision parsing of the interactive loop: the line is trimmed,
lowercased and switched on; anything unrecognised is invalid. -/
def parseDecision (line : String) : Decision :=
  match goToLower (goTrim line) with
  | "y" | "yes" => .approve
  | "n" | "no" => .regenerate
  | "e" | "edit" => .edit
  | "c" | "cancel" => .cancel
  | _ => .invalid

/-- The 70-character separator line printed around the candidate message. -/
def sepLine : String := String.mk (List.replicate 70 '=')

/-- The interactive choice line printed before reading a decision. -/
def choiceLine : String := "\n[y]es, [n]o (regenerate), [e]dit, [c]ancel: "

/-- The feedback question printed after the user chooses regenerate. -/
def feedbackLine : String := "\nWhat would you like improved? (or press Enter for generic): "

/-- Hint attached to the two precondition errors. -/
def stageHint : String := "Stage changes first: git add <files>"

/-- The interactive loop of runInteractiveCommit (step 5 of the workflow).
Each iteration displays the candidate message; under dry-run it prints the
notice and returns nil; under auto-yes it commits at once; otherwise it
reads a decision line (an exhausted input list is an end-of-stream error,
matching a closed stdin) and dispatches.  On regenerate the feedback line
is read with its error discarded (`feedback, _ := reader.ReadString`), so
the partially read data is used even on a failed read. -/
def interactiveLoop (dryRun autoYes : Bool) (commitOutcome : Option Err)
    (editorOutcome : Except Err String) (diff : String)
    (gens : Nat → Except Err String) (round : Nat) (message : String)
    (inputs : List ReadResult) : Option Err × List Event :=
  let shown := [Event.print sepLine, Event.print message, Event.print sepLine]
  match dryRun, autoYes, inputs with
  | true, _, _ =>
    (none, shown ++ [Event.print "\n(Dry run - no commit created)"])
  | false, true, _ =>
    let c := createCommit commitOutcome message
    (c.1, shown ++ [Event.print "\nAuto-committing...", c.2])
  | false, false, inputs =>
    let asked := shown ++ [Event.print choiceLine, Event.readLine]
    match inputs with
    | [] =>
      (some (Err.cli "failed to read input" none (some (Err.external "EOF"))), asked)
    | (_, some e) :: _ =>
      (some (Err.cli "failed to read input" none (some e)), asked)
    | (line, none) :: rest =>
      match parseDecision line with
      | .approve =>
        let c := createCommit commitOutcome message
        (c.1, asked ++ [c.2])
      | .regenerate =>
        let asked2 := asked ++ [Event.print feedbackLine, Event.readLine]
        match rest with
        | [] =>
          let g := generateCommitMessage (gens round) diff (goTrim "")
          let asked3 := asked2 ++ [Event.print "\nRegenerating...", g.2]
          match g.1 with
          | .error e =>
            (some (Err.cli "failed to regenerate message" none (some e)), asked3)
          | .ok msg2 =>
            (some (Err.cli "failed to read input" none (some (Err.external "EOF"))),
             asked3 ++ [Event.print sepLine, Event.print msg2, Event.print sepLine,
               Event.print choiceLine, Event.readLine])
        | (fb, _) :: rest2 =>
          let g := generateCommitMessage (gens round) diff (goTrim fb)
          let asked3 := asked2 ++ [Event.print "\nRegenerating...", g.2]
          match g.1 with
          | .error e =>
            (some (Err.cli "failed to regenerate message" none (some e)), asked3)
          | .ok msg2 =>
            let r := interactiveLoop false false commitOutcome editorOutcome
              diff gens (round + 1) msg2 rest2
            (r.1, asked3 ++ r.2)
      | .edit =>
        let asked2 := asked ++ [Event.runEditor message]
        match editorOutcome with
        | .error e =>
          (some (Err.cli "failed to open editor" none (some e)), asked2)
        | .ok edited =>
          let c := createCommit commitOutcome edited
          (c.1, asked2 ++ [c.2])
      | .cancel =>
        (none, asked ++ [Event.print "\nCommit cancelled."])
      | .invalid =>
        let r := interactiveLoop false false commitOutcome editorOutcome
          diff gens round message rest
        (r.1, asked ++ [Event.print "\nInvalid choice. Please enter y/n/e/c."] ++ r.2)

/-- runInteractiveCommit: checks for staged changes (any failure of the
check, expected or not, is replaced by a causeless "no staged changes
found" CLI error), fetches the staged diff, rejects an empty diff,
creates the AI client, generates the initial message with empty feedback,
and enters the interactive loop. -/
def runInteractiveCommit (w : World) (autoYes dryRun : Bool) :
    Option Err × List Event :=
  let evs1 := [Event.print "Checking for staged changes...", Event.runGitCheck]
  match checkStagedChanges w.checkRun with
  | some _ =>
    (some (Err.cli "no staged changes found" (some stageHint) none), evs1)
  | none =>
    let evs2 := evs1 ++ [Event.print "Generating diff...", Event.runGitDiff]
    match w.diffRun with
    | .error e => (some (Err.cli "failed to get diff" none (some e)), evs2)
    | .ok diff =>
      if diff.length = 0 then
        (some (Err.cli "no changes to commit" (some stageHint) none), evs2)
      else
        match w.clientNew with
        | .error e => (some (Err.cli "failed to create AI client" none (some e)), evs2)
        | .ok _ =>
          let g := generateCommitMessage (w.gens 0) diff ""
          let evs3 := evs2 ++ [Event.print "Generating commit message with AI...", g.2]
          match g.1 with
          | .error e =>
            (some (Err.cli "failed to generate commit message" none (some e)), evs3)
          | .ok message =>
            let r := interactiveLoop dryRun autoYes w.commitRun w.editorRun
              diff w.gens 1 message w.inputs
            (r.1, evs3 ++ r.2)

/-- Messages of the commit invocations recorded in a trace. -/
def commitCalls (evs : List Event) : List String :=
  evs.filterMap fun e => match e with | .runCommit m => some m | _ => none

/-- Prompt pairs of the generation requests recorded in a trace. -/
def genCalls (evs : List Event) : List (String × String) :=
  evs.filterMap fun e => match e with | .genCall s u => some (s, u) | _ => none

/-- Number of terminal reads recorded in a trace. -/
def readCount (evs : List Event) : Nat :=
  (evs.filter (· = Event.readLine)).length

/-- Recognizer for the error values a session may end with: each is either
one of the two precondition errors (which carry no cause because none
exists, resp. because the code replaces the check failure wholesale), or a
phase-describing wrapper that carries the underlying cause. -/
def phaseErrOk : Err → Bool
  | .cli "no staged changes found" _ none => true
  | .cli "no changes to commit" _ none => true
  | .cli "failed to get diff" _ (some _) => true
  | .cli "failed to create AI client" _ (some _) => true
  | .cli "failed to generate commit message" _ (some _) => true
  | .cli "failed to read input" _ (some _) => true
  | .cli "failed to regenerate message" _ (some _) => true
  | .cli "failed to open editor" _ (some _) => true
  | .wrap "failed to create commit" _ => true
  | _ => false

/-- The sequence of feedback strings the interactive loop passes to its
successive regeneration requests, computed from the terminal inputs alone:
one entry per round in which the user chooses regenerate, holding only
the trimmed feedback line of that round alone (empty when the stream is exhausted);
the sequence stops at a failed generation or any terminal decision. -/
def plannedFeedbacks (gens : Nat → Except Err String) (round : Nat) :
    List ReadResult → List String
  | [] => []
  | (_, some _) :: _ => []
  | (line, none) :: [] =>
    match parseDecision line with
    | .regenerate => [goTrim ""]
    | _ => []
  | (line, none) :: (fb, snd) :: rest2 =>
    match parseDecision line with
    | .regenerate =>
      match gens round with
      | .error _ => [goTrim fb]
      | .ok _ => goTrim fb :: plannedFeedbacks gens (round + 1) rest2
    | .invalid => plannedFeedbacks gens round ((fb, snd) :: rest2)
    | _ => []

/-- The events a session emits before entering the interactive loop, when
check, diff, client creation and the initial generation all succeed. -/
def headerEvents (diff : String) : List Event :=
  [Event.print "Checking for staged changes...", Event.runGitCheck,
   Event.print "Generating diff...", Event.runGitDiff,
   Event.print "Generating commit message with AI...",
   Event.genCall (CommitMessage diff "").1 (CommitMessage diff "").2]

/-- Under dry-run the loop prints the message and the notice and returns
nil at once, whatever the other arguments are. -/
theorem interactiveLoop_dry (ay : Bool) (co : Option Err) (eo : Except Err String)
    (diff : String) (gens : Nat → Except Err String) (round : Nat) (msg : String)
    (inputs : List ReadResult) :
    interactiveLoop true ay co eo diff gens round msg inputs =
      (none, [Event.print sepLine, Event.print msg, Event.print sepLine,
        Event.print "\n(Dry run - no commit created)"]) := by
  simp [interactiveLoop]

/-- Under auto-yes (and not dry-run) the loop commits the displayed
message at once. -/
theorem interactiveLoop_auto (co : Option Err) (eo : Except Err String)
    (diff : String) (gens : Nat → Except Err String) (round : Nat) (msg : String)
    (inputs : List ReadResult) :
    interactiveLoop false true co eo diff gens round msg inputs =
      (co.map (Err.wrap "failed to create commit"),
       [Event.print sepLine, Event.print msg, Event.print sepLine,
        Event.print "\nAuto-committing...", Event.runCommit msg]) := by
  simp [interactiveLoop, createCommit]

/-- When every step before the loop succeeds, the session is the header
events followed by the interactive loop on the trimmed initial message. -/
theorem run_ok_shape (w : World) (ay dr : Bool) (t diff : String)
    (hc : checkStagedChanges w.checkRun = none) (hd : w.diffRun = .ok diff)
    (hn : diff.length ≠ 0) (hcl : w.clientNew = .ok ()) (hg : w.gens 0 = .ok t) :
    runInteractiveCommit w ay dr =
      ((interactiveLoop dr ay w.commitRun w.editorRun diff w.gens 1 (goTrim t) w.inputs).1,
       headerEvents diff ++
         (interactiveLoop dr ay w.commitRun w.editorRun diff w.gens 1 (goTrim t) w.inputs).2) := by
  unfold runInteractiveCommit
  rw [hc, hd, hcl, hg]
  simp [generateCommitMessage, headerEvents, hn]

/-- Invariant of the interactive loop: at most one commit invocation is
recorded, a recorded commit invocation is the last event of the trace,
and a commit invocation whose underlying run succeeds makes the loop
return nil. -/
theorem loop_commit_invariant (dryRun autoYes : Bool) (co : Option Err)
    (eo : Except Err String) (diff : String) (gens : Nat → Except Err String)
    (round : Nat) (message : String) (inputs : List ReadResult) :
    (commitCalls (interactiveLoop dryRun autoYes co eo diff gens round message inputs).2).length ≤ 1 ∧
    (∀ m, Event.runCommit m ∈ (interactiveLoop dryRun autoYes co eo diff gens round message inputs).2 →
      ((interactiveLoop dryRun autoYes co eo diff gens round message inputs).2.getLast? =
        some (Event.runCommit m) ∧
       (co = none → (interactiveLoop dryRun autoYes co eo diff gens round message inputs).1 = none))) := by
  induction dryRun, autoYes, co, eo, diff, gens, round, message, inputs
    using interactiveLoop.induct with
  | case1 t ay co eo diff gens round msg =>
    simp [interactiveLoop, commitCalls]
  | case2 t co eo diff gens round msg =>
    cases co <;> simp [interactiveLoop, commitCalls, createCommit]
  | case3 co eo diff gens round msg =>
    simp [interactiveLoop, commitCalls]
  | case4 co eo diff gens round msg fst e tail =>
    simp [interactiveLoop, commitCalls]
  | case5 co eo diff gens round msg line rest hline =>
    cases co <;> simp [interactiveLoop, hline, commitCalls, createCommit]
  | case6 co eo diff gens round msg line hline g e hge =>
    rcases hg : gens round with e0 | t0 <;>
      simp [interactiveLoop, hline, hg, commitCalls, generateCommitMessage]
  | case7 co eo diff gens round msg line hline g t hgt =>
    rcases hg : gens round with e0 | t0 <;>
      simp [interactiveLoop, hline, hg, commitCalls, generateCommitMessage]
  | case8 co eo diff gens round msg line hline fb snd rest2 g e hge =>
    unfold g at hge
    simp only [generateCommitMessage] at hge
    rcases hg : gens round with e0 | t0 <;> rw [hg] at hge <;> simp at hge <;>
      simp [interactiveLoop, hline, hg, commitCalls, generateCommitMessage]
  | case9 co eo diff gens round msg line hline fb snd rest2 g t hgt ih =>
    unfold g at hgt
    simp only [generateCommitMessage] at hgt
    rcases hg : gens round with e0 | t0 <;> rw [hg] at hgt <;> simp at hgt
    subst hgt
    simp only [interactiveLoop, hline, hg, commitCalls, generateCommitMessage,
      List.filterMap_append] at ih ⊢
    refine ⟨by simpa using ih.1, ?_⟩
    intro m hm
    simp only [List.mem_append, List.mem_cons, List.not_mem_nil, or_false, false_or,
      reduceCtorEq] at hm
    have h2 := ih.2 m hm
    rw [List.getLast?_append_of_ne_nil _ (List.ne_nil_of_mem hm)]
    exact ⟨h2.1, h2.2⟩
  | case10 co diff gens round msg line rest hline e =>
    simp [interactiveLoop, hline, commitCalls]
  | case11 co diff gens round msg line rest hline t =>
    cases co <;> simp [interactiveLoop, hline, commitCalls, createCommit]
  | case12 co eo diff gens round msg line rest hline =>
    simp [interactiveLoop, hline, commitCalls]
  | case13 co eo diff gens round msg line rest hline ih =>
    simp only [interactiveLoop, hline, commitCalls, List.filterMap_append] at ih ⊢
    refine ⟨by simpa using ih.1, ?_⟩
    intro m hm
    simp only [List.mem_append, List.mem_cons, List.not_mem_nil, or_false, false_or,
      reduceCtorEq] at hm
    have h2 := ih.2 m hm
    rw [List.getLast?_append_of_ne_nil _ (List.ne_nil_of_mem hm)]
    exact ⟨h2.1, h2.2⟩

/-- Every error the interactive loop can return names its phase and
carries its underlying cause. -/
theorem loop_err_shape (dryRun autoYes : Bool) (co : Option Err)
    (eo : Except Err String) (diff : String) (gens : Nat → Except Err String)
    (round : Nat) (message : String) (inputs : List ReadResult) :
    ∀ e, (interactiveLoop dryRun autoYes co eo diff gens round message inputs).1 = some e →
      phaseErrOk e = true := by
  induction dryRun, autoYes, co, eo, diff, gens, round, message, inputs
    using interactiveLoop.induct with
  | case1 t ay co eo diff gens round msg =>
    simp [interactiveLoop]
  | case2 t co eo diff gens round msg =>
    cases co with
    | none => simp [interactiveLoop, createCommit]
    | some c =>
      intro e he
      simp [interactiveLoop, createCommit] at he
      simp [← he, phaseErrOk]
  | case3 co eo diff gens round msg =>
    intro e he
    simp [interactiveLoop] at he
    simp [← he, phaseErrOk]
  | case4 co eo diff gens round msg fst e0 tail =>
    intro e he
    simp [interactiveLoop] at he
    simp [← he, phaseErrOk]
  | case5 co eo diff gens round msg line rest hline =>
    cases co with
    | none => simp [interactiveLoop, hline, createCommit]
    | some c =>
      intro e he
      simp [interactiveLoop, hline, createCommit] at he
      simp [← he, phaseErrOk]
  | case6 co eo diff gens round msg line hline g e0 hge =>
    intro e he
    rcases hg : gens round with e1 | t1 <;>
      simp [interactiveLoop, hline, hg, generateCommitMessage] at he <;>
      simp [← he, phaseErrOk]
  | case7 co eo diff gens round msg line hline g t hgt =>
    intro e he
    rcases hg : gens round with e1 | t1 <;>
      simp [interactiveLoop, hline, hg, generateCommitMessage] at he <;>
      simp [← he, phaseErrOk]
  | case8 co eo diff gens round msg line hline fb snd rest2 g e0 hge =>
    unfold g at hge
    simp only [generateCommitMessage] at hge
    rcases hg : gens round with e1 | t1 <;> rw [hg] at hge <;> simp at hge
    intro e he
    simp [interactiveLoop, hline, hg, generateCommitMessage] at he
    simp [← he, phaseErrOk]
  | case9 co eo diff gens round msg line hline fb snd rest2 g t hgt ih =>
    unfold g at hgt
    simp only [generateCommitMessage] at hgt
    rcases hg : gens round with e1 | t1 <;> rw [hg] at hgt <;> simp at hgt
    subst hgt
    intro e he
    simp only [interactiveLoop, hline, hg, generateCommitMessage] at he
    exact ih e he
  | case10 co diff gens round msg line rest hline e0 =>
    intro e he
    simp [interactiveLoop, hline] at he
    simp [← he, phaseErrOk]
  | case11 co diff gens round msg line rest hline t =>
    cases co with
    | none => simp [interactiveLoop, hline, createCommit]
    | some c =>
      intro e he
      simp [interactiveLoop, hline, createCommit] at he
      simp [← he, phaseErrOk]
  | case12 co eo diff gens round msg line rest hline =>
    simp [interactiveLoop, hline]
  | case13 co eo diff gens round msg line rest hline ih =>
    intro e he
    simp only [interactiveLoop, hline] at he
    exact ih e he

/-- The generation requests of the interactive loop are exactly one
request per regeneration round, each composed from the session diff and
only the trimmed feedback line of that round. -/
theorem loop_genCalls (dryRun autoYes : Bool) (co : Option Err)
    (eo : Except Err String) (diff : String) (gens : Nat → Except Err String)
    (round : Nat) (message : String) (inputs : List ReadResult) :
    dryRun = false → autoYes = false →
      genCalls (interactiveLoop dryRun autoYes co eo diff gens round message inputs).2 =
        (plannedFeedbacks gens round inputs).map (fun f => CommitMessage diff f) := by
  induction dryRun, autoYes, co, eo, diff, gens, round, message, inputs
    using interactiveLoop.induct with
  | case1 t ay co eo diff gens round msg => intro h; exact absurd h (by simp)
  | case2 t co eo diff gens round msg => intro _ h; exact absurd h (by simp)
  | case3 co eo diff gens round msg =>
    intro _ _; simp [interactiveLoop, genCalls, plannedFeedbacks]
  | case4 co eo diff gens round msg fst e0 tail =>
    intro _ _; simp [interactiveLoop, genCalls, plannedFeedbacks]
  | case5 co eo diff gens round msg line rest hline =>
    intro _ _
    rcases rest with _ | ⟨⟨fb, snd⟩, rest2⟩ <;>
      simp [interactiveLoop, hline, genCalls, plannedFeedbacks, createCommit]
  | case6 co eo diff gens round msg line hline g e0 hge =>
    intro _ _
    rcases hg : gens round with e1 | t1 <;>
      simp [interactiveLoop, hline, hg, genCalls, plannedFeedbacks, generateCommitMessage]
  | case7 co eo diff gens round msg line hline g t hgt =>
    intro _ _
    rcases hg : gens round with e1 | t1 <;>
      simp [interactiveLoop, hline, hg, genCalls, plannedFeedbacks, generateCommitMessage]
  | case8 co eo diff gens round msg line hline fb snd rest2 g e0 hge =>
    intro _ _
    unfold g at hge
    simp only [generateCommitMessage] at hge
    rcases hg : gens round with e1 | t1 <;> rw [hg] at hge <;> simp at hge
    simp [interactiveLoop, hline, hg, genCalls, plannedFeedbacks, generateCommitMessage]
  | case9 co eo diff gens round msg line hline fb snd rest2 g t hgt ih =>
    intro _ _
    have ih2 := ih rfl rfl
    simp only [genCalls] at ih2
    unfold g at hgt
    simp only [generateCommitMessage] at hgt
    rcases hg : gens round with e1 | t1 <;> rw [hg] at hgt <;> simp at hgt
    subst hgt
    simp [interactiveLoop, hline, hg, generateCommitMessage, genCalls,
      plannedFeedbacks, List.filterMap_append, ih2]
  | case10 co diff gens round msg line rest hline e0 =>
    intro _ _
    rcases rest with _ | ⟨⟨fb, snd⟩, rest2⟩ <;>
      simp [interactiveLoop, hline, genCalls, plannedFeedbacks]
  | case11 co diff gens round msg line rest hline t =>
    intro _ _
    rcases rest with _ | ⟨⟨fb, snd⟩, rest2⟩ <;>
      simp [interactiveLoop, hline, genCalls, plannedFeedbacks, createCommit]
  | case12 co eo diff gens round msg line rest hline =>
    intro _ _
    rcases rest with _ | ⟨⟨fb, snd⟩, rest2⟩ <;>
      simp [interactiveLoop, hline, genCalls, plannedFeedbacks]
  | case13 co eo diff gens round msg line rest hline ih =>
    intro _ _
    have ih2 := ih rfl rfl
    simp only [genCalls] at ih2
    rcases rest with _ | ⟨⟨fb, snd⟩, rest2⟩ <;>
      simp [interactiveLoop, hline, genCalls, plannedFeedbacks,
        List.filterMap_append, ih2]

/-- Events of a session that fails between the staged check and the
client or diff steps. -/
def preDiffEvents : List Event :=
  [Event.print "Checking for staged changes...", Event.runGitCheck,
   Event.print "Generating diff...", Event.runGitDiff]

/-- Exhaustive case analysis of a session: either one of the five steps
before the interactive loop fails, with the session result shown, or all
five succeed and the session is the header followed by the loop. -/
theorem run_shape (w : World) (ay dr : Bool) :
    (∃ e, checkStagedChanges w.checkRun = some e ∧
      runInteractiveCommit w ay dr =
        (some (.cli "no staged changes found" (some stageHint) none),
         [Event.print "Checking for staged changes...", Event.runGitCheck])) ∨
    (∃ e, checkStagedChanges w.checkRun = none ∧ w.diffRun = .error e ∧
      runInteractiveCommit w ay dr =
        (some (.cli "failed to get diff" none (some e)), preDiffEvents)) ∨
    (∃ diff, checkStagedChanges w.checkRun = none ∧ w.diffRun = .ok diff ∧
      diff.length = 0 ∧
      runInteractiveCommit w ay dr =
        (some (.cli "no changes to commit" (some stageHint) none), preDiffEvents)) ∨
    (∃ diff e, checkStagedChanges w.checkRun = none ∧ w.diffRun = .ok diff ∧
      diff.length ≠ 0 ∧ w.clientNew = .error e ∧
      runInteractiveCommit w ay dr =
        (some (.cli "failed to create AI client" none (some e)), preDiffEvents)) ∨
    (∃ diff e, checkStagedChanges w.checkRun = none ∧ w.diffRun = .ok diff ∧
      diff.length ≠ 0 ∧ w.clientNew = .ok () ∧ w.gens 0 = .error e ∧
      runInteractiveCommit w ay dr =
        (some (.cli "failed to generate commit message" none
          (some (.wrap "AI request failed" e))), headerEvents diff)) ∨
    (∃ diff t, checkStagedChanges w.checkRun = none ∧ w.diffRun = .ok diff ∧
      diff.length ≠ 0 ∧ w.clientNew = .ok () ∧ w.gens 0 = .ok t ∧
      runInteractiveCommit w ay dr =
        ((interactiveLoop dr ay w.commitRun w.editorRun diff w.gens 1 (goTrim t) w.inputs).1,
         headerEvents diff ++
           (interactiveLoop dr ay w.commitRun w.editorRun diff w.gens 1 (goTrim t) w.inputs).2)) := by
  rcases hc : checkStagedChanges w.checkRun with _ | e
  · rcases hd : w.diffRun with e | diff
    · exact Or.inr (Or.inl ⟨e, rfl, rfl, by simp [runInteractiveCommit, hc, hd, preDiffEvents]⟩)
    · by_cases hlen : diff.length = 0
      · exact Or.inr (Or.inr (Or.inl ⟨diff, rfl, rfl, hlen,
          by simp [runInteractiveCommit, hc, hd, hlen, preDiffEvents]⟩))
      · rcases hcl : w.clientNew with e | ⟨⟩
        · exact Or.inr (Or.inr (Or.inr (Or.inl ⟨diff, e, rfl, rfl, hlen, rfl,
            by simp [runInteractiveCommit, hc, hd, hlen, hcl, preDiffEvents]⟩)))
        · rcases hg : w.gens 0 with e | t
          · refine Or.inr (Or.inr (Or.inr (Or.inr (Or.inl
              ⟨diff, e, rfl, rfl, hlen, rfl, rfl, ?_⟩))))
            simp [runInteractiveCommit, hc, hd, hlen, hcl, hg, headerEvents,
              generateCommitMessage]
          · exact Or.inr (Or.inr (Or.inr (Or.inr (Or.inr
              ⟨diff, t, rfl, rfl, hlen, rfl, rfl,
               run_ok_shape w ay dr t diff hc hd hlen hcl hg⟩))))
  · exact Or.inl ⟨e, rfl, by simp [runInteractiveCommit, hc]⟩

/-- C2: in every session the commit operation is invoked at most once; a
recorded commit invocation is the final event of the session trace, so a
session that ends any other way (error or cancellation) never invoked it;
and a commit invocation whose underlying run succeeds means the session
returned nil — hence every session that returns an error made no commit. -/
theorem session_commits_at_most_once (w : World) (ay dr : Bool) :
    (commitCalls (runInteractiveCommit w ay dr).2).length ≤ 1 ∧
    (∀ m, Event.runCommit m ∈ (runInteractiveCommit w ay dr).2 →
      ((runInteractiveCommit w ay dr).2.getLast? = some (Event.runCommit m) ∧
       (w.commitRun = none → (runInteractiveCommit w ay dr).1 = none))) ∧
    ((runInteractiveCommit w ay dr).2.getLast? =
        some (Event.print "\nCommit cancelled.") →
      ∀ m, Event.runCommit m ∉ (runInteractiveCommit w ay dr).2) := by
  have main : (commitCalls (runInteractiveCommit w ay dr).2).length ≤ 1 ∧
      (∀ m, Event.runCommit m ∈ (runInteractiveCommit w ay dr).2 →
        ((runInteractiveCommit w ay dr).2.getLast? = some (Event.runCommit m) ∧
         (w.commitRun = none → (runInteractiveCommit w ay dr).1 = none))) := by
    rcases run_shape w ay dr with ⟨e, hc, hr⟩ | ⟨e, hc, hd, hr⟩ | ⟨diff, hc, hd, hlen, hr⟩ |
      ⟨diff, e, hc, hd, hlen, hcl, hr⟩ | ⟨diff, e, hc, hd, hlen, hcl, hg, hr⟩ |
      ⟨diff, t, hc, hd, hlen, hcl, hg, hr⟩
    · rw [hr]; simp [commitCalls]
    · rw [hr]; simp [commitCalls, preDiffEvents]
    · rw [hr]; simp [commitCalls, preDiffEvents]
    · rw [hr]; simp [commitCalls, preDiffEvents]
    · rw [hr]; simp [commitCalls, headerEvents]
    · rw [hr]
      have inv := loop_commit_invariant dr ay w.commitRun w.editorRun diff w.gens 1
        (goTrim t) w.inputs
      refine ⟨?_, ?_⟩
      · simpa [commitCalls, headerEvents, List.filterMap_append] using inv.1
      · intro m hm
        have hm2 : Event.runCommit m ∈
            (interactiveLoop dr ay w.commitRun w.editorRun diff w.gens 1
              (goTrim t) w.inputs).2 := by
          simpa [headerEvents] using hm
        have h2 := inv.2 m hm2
        refine ⟨?_, h2.2⟩
        rw [List.getLast?_append_of_ne_nil _ (List.ne_nil_of_mem hm2)]
        exact h2.1
  refine ⟨main.1, main.2, ?_⟩
  intro hlast m hm
  have h2 := (main.2 m hm).1
  rw [hlast] at h2
  simp at h2

/-- Concrete world in which the git binary cannot be run at all, so the
staged-changes check fails unexpectedly. -/
def wCheckFail : World := {
  checkRun := .startFailure "exec: git: permission denied"
  diffRun := .ok "d"
  clientNew := .ok ()
  gens := fun _ => .ok "m"
  inputs := []
  editorRun := .ok "x"
  commitRun := none }

/-- C3 counterexample: when the staged-changes check itself fails
unexpectedly (git cannot be run), the session replaces it with the fixed
"no staged changes found" CLI error whose cause is `none`: the underlying
cause is dropped, not preserved as the claim states. -/
theorem checkFailure_cause_dropped :
    (runInteractiveCommit wCheckFail false false).1 =
      some (Err.cli "no staged changes found" (some stageHint) none) ∧
    ∀ e, (runInteractiveCommit wCheckFail false false).1 = some e →
      errCause e = none := by
  refine ⟨rfl, fun e he => ?_⟩
  have h0 : (runInteractiveCommit wCheckFail false false).1 =
      some (Err.cli "no staged changes found" (some stageHint) none) := rfl
  rw [h0] at he
  injection he with h
  rw [← h]
  rfl

/-- C3 (amended): every session error names the phase that failed, and
the diff, client-creation, generation, decision-input, editor and commit
failures carry their underlying cause — but a staged-changes check
failure, expected or unexpected, is replaced by the fixed causeless
"no staged changes found" error, and an error on the feedback-line read
is swallowed: the loop behaves exactly as if that read succeeded with the
partially read data. -/
theorem session_error_reporting (w : World) (ay dr : Bool) :
    (∀ e, (runInteractiveCommit w ay dr).1 = some e → phaseErrOk e = true) ∧
    (∀ s, w.checkRun = .startFailure s → (runInteractiveCommit w ay dr).1 =
      some (Err.cli "no staged changes found" (some stageHint) none)) ∧
    (∀ (co : Option Err) (eo : Except Err String) (diff : String)
       (gens : Nat → Except Err String) (round : Nat) (msg line fb : String)
       (e : Err) (rest : List ReadResult),
      parseDecision line = .regenerate →
      interactiveLoop false false co eo diff gens round msg
          ((line, none) :: (fb, some e) :: rest) =
        interactiveLoop false false co eo diff gens round msg
          ((line, none) :: (fb, none) :: rest)) := by
  refine ⟨?_, ?_, ?_⟩
  · intro e he
    rcases run_shape w ay dr with ⟨e0, hc, hr⟩ | ⟨e0, hc, hd, hr⟩ |
      ⟨diff, hc, hd, hlen, hr⟩ | ⟨diff, e0, hc, hd, hlen, hcl, hr⟩ |
      ⟨diff, e0, hc, hd, hlen, hcl, hg, hr⟩ | ⟨diff, t, hc, hd, hlen, hcl, hg, hr⟩
    · rw [hr] at he; simp at he; rw [← he]; rfl
    · rw [hr] at he; simp at he; rw [← he]; rfl
    · rw [hr] at he; simp at he; rw [← he]; rfl
    · rw [hr] at he; simp at he; rw [← he]; rfl
    · rw [hr] at he; simp at he; rw [← he]; rfl
    · rw [hr] at he
      simp only at he
      exact loop_err_shape dr ay w.commitRun w.editorRun diff w.gens 1
        (goTrim t) w.inputs e he
  · intro s hs
    have hc : checkStagedChanges w.checkRun =
        some (.wrap "failed to check staged changes" (.external s)) := by
      rw [hs]; rfl
    simp [runInteractiveCommit, hc]
  · intro co eo diff gens round msg line fb e rest hline
    simp [interactiveLoop, hline]

/-- C1: with the dry-run flag set no commit is ever invoked, whatever the
value of the auto-approve flag; and whenever a message is generated (the
single presentation a dry-run session performs) the session prints the
trimmed generated message and returns nil (exit code 0). -/
theorem dryRun_never_commits (w : World) (ay : Bool) :
    (∀ m, Event.runCommit m ∉ (runInteractiveCommit w ay true).2) ∧
    (∀ t diff, checkStagedChanges w.checkRun = none → w.diffRun = .ok diff →
      diff.length ≠ 0 → w.clientNew = .ok () → w.gens 0 = .ok t →
      (runInteractiveCommit w ay true).1 = none ∧
      Event.print (goTrim t) ∈ (runInteractiveCommit w ay true).2) := by
  constructor
  · intro m
    rcases run_shape w ay true with ⟨e, hc, hr⟩ | ⟨e, hc, hd, hr⟩ |
      ⟨diff, hc, hd, hlen, hr⟩ | ⟨diff, e, hc, hd, hlen, hcl, hr⟩ |
      ⟨diff, e, hc, hd, hlen, hcl, hg, hr⟩ | ⟨diff, t, hc, hd, hlen, hcl, hg, hr⟩ <;>
      rw [hr] <;>
      simp [preDiffEvents, headerEvents, interactiveLoop_dry]
  · intro t diff hc hd hlen hcl hg
    rw [run_ok_shape w ay true t diff hc hd hlen hcl hg, interactiveLoop_dry]
    simp [headerEvents]

/-- Concrete session for the C1 witness: staged changes exist, generation
succeeds, both dry-run and auto-approve are set. -/
def wDry : World := {
  checkRun := .exited 1
  diffRun := .ok "diff --git a/x b/x\n+foo"
  clientNew := .ok ()
  gens := fun _ => .ok "feat: add foo"
  inputs := [("n", none)]
  editorRun := .ok "x"
  commitRun := none }

/-- Witness for C1 at a concrete dry-run session with auto-approve set. -/
theorem dryRun_never_commits_witness :
    Event.runCommit "feat: add foo" ∉ (runInteractiveCommit wDry true true).2 ∧
    (runInteractiveCommit wDry true true).1 = none ∧
    Event.print (goTrim "feat: add foo") ∈ (runInteractiveCommit wDry true true).2 := by
  refine ⟨(dryRun_never_commits wDry true).1 _, ?_, ?_⟩
  · exact ((dryRun_never_commits wDry true).2 "feat: add foo" "diff --git a/x b/x\n+foo"
      rfl rfl (by decide) rfl rfl).1
  · exact ((dryRun_never_commits wDry true).2 "feat: add foo" "diff --git a/x b/x\n+foo"
      rfl rfl (by decide) rfl rfl).2

/-- C4: the staged-changes check maps exit code 0 (no differences) to the
"no staged changes" outcome — the boolean-false signal —, exit code 1
(differences present) to nil — the boolean-true signal —, and every
other exit status, as well as a failure to run the tool at all, to a
wrapped execution error carrying the cause, never to one of the two
boolean outcomes. -/
theorem checkStagedChanges_exit_mapping :
    checkStagedChanges (.exited 0) = some (.errorf "no staged changes") ∧
    checkStagedChanges (.exited 1) = none ∧
    (∀ c : Nat, c ≠ 0 → c ≠ 1 → checkStagedChanges (.exited c) =
      some (.wrap "failed to check staged changes"
        (.external ("exit status " ++ toString c)))) ∧
    (∀ s : String, checkStagedChanges (.startFailure s) =
      some (.wrap "failed to check staged changes" (.external s))) := by
  refine ⟨rfl, rfl, ?_, fun s => rfl⟩
  intro c h0 h1
  match c with
  | 0 => exact absurd rfl h0
  | 1 => exact absurd rfl h1
  | (n + 2) => rfl

/-- Witness for C4 at the concrete unexpected exit code 128. -/
theorem checkStagedChanges_exit_mapping_witness :
    checkStagedChanges (.exited 128) =
      some (.wrap "failed to check staged changes"
        (.external ("exit status " ++ toString 128))) :=
  checkStagedChanges_exit_mapping.2.2.1 128 (by decide) (by decide)

/-- C7: the user prompt of CommitMessage D F is the fixed request line, a
blank line and D verbatim; a non-empty F appends exactly the literal
feedback marker followed by F; an empty F appends nothing. -/
theorem commitMessage_user_prompt (D F : String) :
    (F = "" → (CommitMessage D F).2 =
      "Generate a conventional commit message for these changes:\n\n" ++ D) ∧
    (F ≠ "" → (CommitMessage D F).2 =
      "Generate a conventional commit message for these changes:\n\n" ++ D ++
        "\n\nUser feedback for improvement: " ++ F) := by
  constructor
  · rintro rfl
    simp [CommitMessage]
  · intro h
    simp [CommitMessage, h, String.append_assoc]

/-- Witness for C7 at a concrete diff with empty and non-empty feedback. -/
theorem commitMessage_user_prompt_witness :
    (CommitMessage "+foo" "").2 =
      "Generate a conventional commit message for these changes:\n\n" ++ "+foo" ∧
    (CommitMessage "+foo" "shorter").2 =
      "Generate a conventional commit message for these changes:\n\n" ++ "+foo" ++
        "\n\nUser feedback for improvement: " ++ "shorter" :=
  ⟨(commitMessage_user_prompt "+foo" "").1 rfl,
   (commitMessage_user_prompt "+foo" "shorter").2 (by decide)⟩

/-- C8: decision parsing is case-insensitive and ignores surrounding
whitespace on each specified sample, anything else is invalid, and an
invalid line makes the loop print the invalid-choice notice and re-prompt
with the candidate message, round and all other state unchanged. -/
theorem decision_parsing :
    (parseDecision "y" = .approve ∧ parseDecision "Y" = .approve ∧
     parseDecision "yes" = .approve ∧ parseDecision " YES \n" = .approve) ∧
    (parseDecision "n" = .regenerate ∧ parseDecision "no" = .regenerate) ∧
    (parseDecision "e" = .edit ∧ parseDecision "edit" = .edit) ∧
    (parseDecision "c" = .cancel ∧ parseDecision "cancel" = .cancel) ∧
    (parseDecision "q" = .invalid ∧ parseDecision "" = .invalid ∧
     parseDecision "maybe" = .invalid) ∧
    (∀ (co : Option Err) (eo : Except Err String) (diff : String)
       (gens : Nat → Except Err String) (round : Nat) (msg line : String)
       (rest : List ReadResult), parseDecision line = .invalid →
      (interactiveLoop false false co eo diff gens round msg ((line, none) :: rest)).1 =
        (interactiveLoop false false co eo diff gens round msg rest).1 ∧
      (interactiveLoop false false co eo diff gens round msg ((line, none) :: rest)).2 =
        [Event.print sepLine, Event.print msg, Event.print sepLine,
         Event.print choiceLine, Event.readLine,
         Event.print "\nInvalid choice. Please enter y/n/e/c."] ++
          (interactiveLoop false false co eo diff gens round msg rest).2) := by
  refine ⟨by decide, by decide, by decide, by decide, by decide, ?_⟩
  intro co eo diff gens round msg line rest h
  constructor <;> simp [interactiveLoop, h]

/-- Witness for C8: the invalid-input re-prompt at a concrete state. -/
theorem decision_parsing_witness :
    parseDecision "maybe" = .invalid ∧
    (interactiveLoop false false none (.ok "x") "d" (fun _ => .ok "m") 1 "msg"
        [("maybe", none)]).1 =
      (interactiveLoop false false none (.ok "x") "d" (fun _ => .ok "m") 1 "msg" []).1 := by
  refine ⟨by decide, ?_⟩
  exact (decision_parsing.2.2.2.2.2 none (.ok "x") "d" (fun _ => .ok "m") 1 "msg"
    "maybe" [] (by decide)).1

/-- C5: in a session whose pre-loop steps succeed, the generation
requests are exactly one initial request composed from the session diff
and empty feedback, followed — in interactive mode — by one request per
regeneration round composed from that same diff and only the trimmed
feedback of that round; feedback from an earlier round never enters the
prompt of a later round. -/
theorem generation_prompts_per_round (w : World) (ay dr : Bool)
    (t diff : String) (hc : checkStagedChanges w.checkRun = none)
    (hd : w.diffRun = .ok diff) (hlen : diff.length ≠ 0)
    (hcl : w.clientNew = .ok ()) (hg : w.gens 0 = .ok t) :
    genCalls (runInteractiveCommit w ay dr).2 =
      CommitMessage diff "" ::
        (if dr || ay then [] else
          (plannedFeedbacks w.gens 1 w.inputs).map (fun f => CommitMessage diff f)) := by
  rw [run_ok_shape w ay dr t diff hc hd hlen hcl hg]
  cases dr with
  | true =>
    simp [genCalls, headerEvents, List.filterMap_append, interactiveLoop_dry]
  | false =>
    cases ay with
    | true =>
      simp [genCalls, headerEvents, List.filterMap_append, interactiveLoop_auto]
    | false =>
      have h := loop_genCalls false false w.commitRun w.editorRun diff w.gens 1
        (goTrim t) w.inputs rfl rfl
      simp only [genCalls] at h
      simp [genCalls, headerEvents, List.filterMap_append, h]

/-- Concrete session for the C5 witness: the user asks for a
regeneration with feedback "mention the bugfix", then approves. -/
def wRegen : World := {
  checkRun := .exited 1
  diffRun := .ok "diff --git a/x b/x\n+foo"
  clientNew := .ok ()
  gens := fun _ => .ok "feat: add foo"
  inputs := [("no", none), ("mention the bugfix", none), ("y", none)]
  editorRun := .ok "x"
  commitRun := none }

/-- Witness for C5: the concrete session issues exactly the initial
request and one regeneration request carrying only the new feedback. -/
theorem generation_prompts_per_round_witness :
    genCalls (runInteractiveCommit wRegen false false).2 =
      [CommitMessage "diff --git a/x b/x\n+foo" "",
       CommitMessage "diff --git a/x b/x\n+foo" "mention the bugfix"] := by
  have h := generation_prompts_per_round wRegen false false "feat: add foo"
    "diff --git a/x b/x\n+foo" rfl rfl (by decide) rfl rfl
  rw [h]
  rfl

/-- C6: with auto-approve set and dry-run unset, a successful generation
leads to exactly one commit invocation whose message is the generated
text trimmed of surrounding whitespace, no line is ever read from the
terminal (no interactive prompt), and a successful commit run makes the
session return nil. -/
theorem autoApprove_commits_trimmed (w : World) (t diff : String)
    (hc : checkStagedChanges w.checkRun = none) (hd : w.diffRun = .ok diff)
    (hlen : diff.length ≠ 0) (hcl : w.clientNew = .ok ()) (hg : w.gens 0 = .ok t) :
    commitCalls (runInteractiveCommit w true false).2 = [goTrim t] ∧
    Event.readLine ∉ (runInteractiveCommit w true false).2 ∧
    (w.commitRun = none → (runInteractiveCommit w true false).1 = none) := by
  rw [run_ok_shape w true false t diff hc hd hlen hcl hg, interactiveLoop_auto]
  refine ⟨?_, ?_, ?_⟩
  · simp [commitCalls, headerEvents, List.filterMap_append]
  · simp [headerEvents]
  · intro hco; simp [hco]

/-- Concrete session for the C6 witness: generation returns text with
surrounding whitespace. -/
def wAuto : World := {
  checkRun := .exited 1
  diffRun := .ok "+d"
  clientNew := .ok ()
  gens := fun _ => .ok "  feat: trim me \n"
  inputs := []
  editorRun := .ok "x"
  commitRun := none }

/-- Witness for C6: the concrete auto-approve session commits exactly the
trimmed generated text without reading any input. -/
theorem autoApprove_commits_trimmed_witness :
    commitCalls (runInteractiveCommit wAuto true false).2 = ["feat: trim me"] ∧
    Event.readLine ∉ (runInteractiveCommit wAuto true false).2 ∧
    (runInteractiveCommit wAuto true false).1 = none := by
  have h := autoApprove_commits_trimmed wAuto "  feat: trim me \n" "+d"
    rfl rfl (by decide) rfl rfl
  exact ⟨by rw [h.1]; rfl, h.2.1, h.2.2 rfl⟩

/-- C9: when the session reaches the prompt and the user chooses Edit,
a successful editor run makes the session commit exactly the text the
editor returned, byte for byte and untrimmed, after exactly one terminal
read (no further approval prompt, no dry-run re-check); a failed editor
run ends the session with the editor error carrying its cause and no
commit invocation at all. -/
theorem edit_commits_editor_text (w : World) (t diff line : String)
    (rest : List ReadResult)
    (hc : checkStagedChanges w.checkRun = none) (hd : w.diffRun = .ok diff)
    (hlen : diff.length ≠ 0) (hcl : w.clientNew = .ok ()) (hg : w.gens 0 = .ok t)
    (hi : w.inputs = (line, none) :: rest) (hline : parseDecision line = .edit) :
    (∀ edited, w.editorRun = .ok edited →
      commitCalls (runInteractiveCommit w false false).2 = [edited] ∧
      readCount (runInteractiveCommit w false false).2 = 1 ∧
      (w.commitRun = none → (runInteractiveCommit w false false).1 = none)) ∧
    (∀ e, w.editorRun = .error e →
      (runInteractiveCommit w false false).1 =
        some (Err.cli "failed to open editor" none (some e)) ∧
      commitCalls (runInteractiveCommit w false false).2 = []) := by
  rw [run_ok_shape w false false t diff hc hd hlen hcl hg, hi]
  constructor
  · intro edited he
    rw [he]
    refine ⟨?_, ?_, ?_⟩
    · simp [interactiveLoop, hline, commitCalls, createCommit, headerEvents,
        List.filterMap_append]
    · simp [interactiveLoop, hline, readCount, createCommit, headerEvents]
    · intro hco
      simp [interactiveLoop, hline, createCommit, hco]
  · intro e he
    rw [he]
    constructor
    · simp [interactiveLoop, hline]
    · simp [interactiveLoop, hline, commitCalls, headerEvents, List.filterMap_append]

/-- Concrete session for the C9 witness: the user chooses edit and the
editor returns altered text. -/
def wEdit : World := {
  checkRun := .exited 1
  diffRun := .ok "+d"
  clientNew := .ok ()
  gens := fun _ => .ok "feat: x"
  inputs := [("e", none)]
  editorRun := .ok "fix: corrected typo"
  commitRun := none }

/-- Concrete session for the C9 witness, editor failing. -/
def wEditFail : World := {
  checkRun := .exited 1
  diffRun := .ok "+d"
  clientNew := .ok ()
  gens := fun _ => .ok "feat: x"
  inputs := [("e", none)]
  editorRun := .error (.external "editor exited with status 1")
  commitRun := none }

/-- Witness for C9 at the two concrete sessions: successful edit commits
exactly the edited text after one read; failed edit yields the editor
error and no commit. -/
theorem edit_commits_editor_text_witness :
    commitCalls (runInteractiveCommit wEdit false false).2 = ["fix: corrected typo"] ∧
    readCount (runInteractiveCommit wEdit false false).2 = 1 ∧
    (runInteractiveCommit wEditFail false false).1 =
      some (Err.cli "failed to open editor" none
        (some (.external "editor exited with status 1"))) ∧
    commitCalls (runInteractiveCommit wEditFail false false).2 = [] := by
  have h1 := (edit_commits_editor_text wEdit "feat: x" "+d" "e" [] rfl rfl (by decide)
    rfl rfl rfl (by decide)).1 "fix: corrected typo" rfl
  have h2 := (edit_commits_editor_text wEditFail "feat: x" "+d" "e" [] rfl rfl (by decide)
    rfl rfl rfl (by decide)).2 (.external "editor exited with status 1") rfl
  exact ⟨h1.1, h1.2.1, h2.1, h2.2⟩

/-- C10: the feedback line entered after a regenerate decision is trimmed
before being passed to prompt composition: the next generation request is
composed from the session diff and the trimmed line, so a line of only
whitespace is treated as empty feedback and — by the shape of
CommitMessage — the prompt then carries no feedback block. -/
theorem feedback_trimmed_before_compose (co : Option Err) (eo : Except Err String)
    (diff : String) (gens : Nat → Except Err String) (round : Nat)
    (msg line fb : String) (readErr : Option Err) (rest : List ReadResult)
    (hline : parseDecision line = .regenerate) :
    (genCalls (interactiveLoop false false co eo diff gens round msg
        ((line, none) :: (fb, readErr) :: rest)).2).head? =
      some (CommitMessage diff (goTrim fb)) := by
  rcases hg : gens round with e | t <;>
    simp [interactiveLoop, hline, hg, genCalls, generateCommitMessage]

/-- Witness for C10: a whitespace-only feedback line yields a prompt pair
with empty feedback, hence no feedback block. -/
theorem feedback_trimmed_before_compose_witness :
    (genCalls (interactiveLoop false false none (.ok "x") "+d" (fun _ => .ok "m") 1
        "msg" [("n", none), ("  \t ", none)]).2).head? =
      some (CommitMessage "+d" "") := by
  have h := feedback_trimmed_before_compose none (.ok "x") "+d" (fun _ => .ok "m") 1
    "msg" "n" "  \t " none [] (by decide)
  rw [h]
  rfl

/-- Concrete session for the C2 witness: one regeneration round then an
approval, ending in a successful commit. -/
def wApprove : World := {
  checkRun := .exited 1
  diffRun := .ok "+d"
  clientNew := .ok ()
  gens := fun _ => .ok "feat: y"
  inputs := [("y", none)]
  editorRun := .ok "x"
  commitRun := none }

/-- Witness for C2 at a concrete approved session: the single commit
invocation is the final event and the session returns nil. -/
theorem session_commits_at_most_once_witness :
    Event.runCommit "feat: y" ∈ (runInteractiveCommit wApprove false false).2 ∧
    (runInteractiveCommit wApprove false false).2.getLast? =
      some (Event.runCommit "feat: y") ∧
    (runInteractiveCommit wApprove false false).1 = none := by
  have hm : Event.runCommit "feat: y" ∈ (runInteractiveCommit wApprove false false).2 := by
    decide
  have h := (session_commits_at_most_once wApprove false false).2.1 "feat: y" hm
  exact ⟨hm, h.1, h.2 rfl⟩

/-- Witness for the amended C3 at concrete sessions: the causeless
replacement error of a failed staged-check session satisfies the error
taxonomy, and a failed feedback-line read is swallowed. -/
theorem session_error_reporting_witness :
    phaseErrOk (Err.cli "no staged changes found" (some stageHint) none) = true ∧
    (runInteractiveCommit wCheckFail false false).1 =
      some (Err.cli "no staged changes found" (some stageHint) none) ∧
    interactiveLoop false false none (.ok "x") "+d" (fun _ => .ok "m") 1 "msg"
        [("n", none), ("fb", some (.external "read error"))] =
      interactiveLoop false false none (.ok "x") "+d" (fun _ => .ok "m") 1 "msg"
        [("n", none), ("fb", none)] := by
  have h := session_error_reporting wCheckFail false false
  exact ⟨h.1 _ rfl, h.2.1 "exec: git: permission denied" rfl,
    h.2.2 none (.ok "x") "+d" (fun _ => .ok "m") 1 "msg" "n" "fb"
      (.external "read error") [] (by decide)⟩

end ArcCommit
